import Mathlib

/-!
Verification of the `DataProcessor` aggregation module of the
Clearly-Politics dashboard (src/js/data-processor.js).

JavaScript numbers are modelled exactly: a value is either a rational
(`JSNum.num q`) or one of the IEEE special values NaN / +Infinity /
-Infinity that JavaScript division by zero produces.  Arithmetic on the
finite values is exact rational arithmetic (the concrete inputs appearing
in the specification are all exactly representable, so float rounding
plays no role in the claims).  `Math.round` rounds halves toward
positive infinity on the exact values involved, which is Mathlib's
`round`; `Number.prototype.toFixed` instead strips the sign and picks
the larger digit string on a tie, i.e. it rounds halves away from zero.
-/

namespace ClearlyPolitics

/-- A JavaScript number: an exact rational, or NaN / +Infinity / -Infinity. -/
inductive JSNum where
  | num (q : ℚ)
  | nan
  | inf
  | ninf
deriving DecidableEq, Repr

/-- JavaScript division.  `0/0 = NaN`, `a/0 = ±Infinity` for `a ≠ 0`. -/
def jsDiv : JSNum → JSNum → JSNum
  | .num a, .num b =>
      if b = 0 then
        if a = 0 then .nan else if 0 < a then .inf else .ninf
      else .num (a / b)
  | .nan, _ => .nan
  | _, .nan => .nan
  | .inf, .inf => .nan
  | .inf, .ninf => .nan
  | .ninf, .inf => .nan
  | .ninf, .ninf => .nan
  | .inf, .num b => if 0 ≤ b then .inf else .ninf
  | .ninf, .num b => if 0 ≤ b then .ninf else .inf
  | .num _, .inf => .num 0
  | .num _, .ninf => .num 0

/-- JavaScript multiplication (on the cases arising here). -/
def jsMul : JSNum → JSNum → JSNum
  | .num a, .num b => .num (a * b)
  | .nan, _ => .nan
  | _, .nan => .nan
  | .inf, .inf => .inf
  | .inf, .ninf => .ninf
  | .ninf, .inf => .ninf
  | .ninf, .ninf => .inf
  | .inf, .num b => if b = 0 then .nan else if 0 < b then .inf else .ninf
  | .num a, .inf => if a = 0 then .nan else if 0 < a then .inf else .ninf
  | .ninf, .num b => if b = 0 then .nan else if 0 < b then .ninf else .inf
  | .num a, .ninf => if a = 0 then .nan else if 0 < a then .ninf else .inf

/-- JavaScript `a > b` (false whenever an operand is NaN). -/
def jsGtB : JSNum → JSNum → Bool
  | .num a, .num b => decide (b < a)
  | .nan, _ => false
  | _, .nan => false
  | .inf, .inf => false
  | .inf, _ => true
  | _, .inf => false
  | .ninf, _ => false
  | .num _, .ninf => true

/-- JavaScript `a < b` (false whenever an operand is NaN). -/
def jsLtB (a b : JSNum) : Bool := jsGtB b a

/-- The integer chosen by `toFixed` for a scaled value: the sign is
stripped and the larger candidate is picked on a tie, so halves round
away from zero (`(-62.5).toFixed(0)` is `"-63"`). -/
def toFixedInt (t : ℚ) : ℤ := if t < 0 then -round (-t) else round t

/-- Rounding to one decimal, halves away from zero; the exact-value
behaviour of `parseFloat(x.toFixed(1))`. -/
def round1 (q : ℚ) : ℚ := (toFixedInt (q * 10) : ℚ) / 10

/-- `parseFloat(x.toFixed(1))` on a JavaScript number. -/
def jsToFixed1 : JSNum → JSNum
  | .num q => .num (round1 q)
  | .nan => .nan
  | .inf => .inf
  | .ninf => .ninf

/-- `Math.round` (halves toward +∞; NaN and infinities pass through). -/
def jsRound : JSNum → JSNum
  | .num q => .num ((round q : ℤ) : ℚ)
  | .nan => .nan
  | .inf => .inf
  | .ninf => .ninf

/-- The finite value of a JavaScript number (0 for the special values);
used only where a guard has already ensured finiteness. -/
def jsVal : JSNum → ℚ
  | .num q => q
  | _ => 0

/-- The `statePopulations` table of the `DataProcessor` constructor. -/
def statePopulations : List (String × ℚ) :=
  [("AL", 5108468), ("AK", 733406), ("AZ", 7359197), ("AR", 3045637),
   ("CA", 38965193), ("CO", 5895630), ("CT", 3626205), ("DE", 1003384),
   ("FL", 22610726), ("GA", 10912876), ("HI", 1440196), ("ID", 1964726),
   ("IL", 12620571), ("IN", 6833037), ("IA", 3207004), ("KS", 2940865),
   ("KY", 4512310), ("LA", 4590241), ("ME", 1395722), ("MD", 6164660),
   ("MA", 7001399), ("MI", 10037261), ("MN", 5737915), ("MS", 2940057),
   ("MO", 6196994), ("MT", 1122069), ("NE", 1986765), ("NV", 3194176),
   ("NH", 1402054), ("NJ", 9261699), ("NM", 2113344), ("NY", 19469232),
   ("NC", 10835491), ("ND", 783926), ("OH", 11785935), ("OK", 4019800),
   ("OR", 4233358), ("PA", 12972008), ("RI", 1095962), ("SC", 5282634),
   ("SD", 909824), ("TN", 7126489), ("TX", 30503301), ("UT", 3380800),
   ("VT", 647464), ("VA", 8715698), ("WA", 7812880), ("WV", 1775156),
   ("WI", 5892539), ("WY", 581381)]

/-- The three political classification lists of the constructor. -/
structure Classifications where
  red : List String
  blue : List String
  swing : List String

/-- The `politicalClassifications` table of the constructor. -/
def politicalClassifications : Classifications where
  red := ["AL", "AK", "AR", "FL", "ID", "IN", "IA", "KS", "KY", "LA",
          "MS", "MO", "MT", "NE", "ND", "OH", "OK", "SC", "SD", "TN",
          "TX", "UT", "WV", "WY"]
  blue := ["CA", "CO", "CT", "DE", "HI", "IL", "ME", "MD", "MA", "MI",
           "MN", "NV", "NH", "NJ", "NM", "NY", "OR", "RI", "VT", "VA",
           "WA", "DC"]
  swing := ["AZ", "GA", "NC", "PA", "WI"]

/-- `calculatePerCapita(incidents, population)` with the default
multiplier 100000: `(incidents / population) * multiplier`. -/
def calculatePerCapita (incidents population : ℚ) : JSNum :=
  jsMul (jsDiv (.num incidents) (.num population)) (.num 100000)

/-- One element of `rawData.stateBreakdown`. -/
structure StateRecord where
  state : String
  incidents : ℚ
deriving DecidableEq, Repr

/-- A running `{ incidents, population }` accumulator. -/
structure CategoryAgg where
  incidents : ℚ
  population : ℚ
deriving DecidableEq, Repr

/-- A returned `{ incidents, population, rate }` aggregate. -/
structure CategoryResult where
  incidents : ℚ
  population : ℚ
  rate : JSNum
deriving DecidableEq, Repr

/-- The value returned by `processGunViolenceByPolitics`. -/
structure PoliticsResult where
  red : CategoryResult
  blue : CategoryResult
  swing : CategoryResult
deriving DecidableEq, Repr

/-- The body of the `forEach` loop of `processGunViolenceByPolitics`:
`statePopulations[state] || 0` defaults a missing population to 0, and the
`if / else if` chain sends the record to the first matching category. -/
def gvStep (acc : CategoryAgg × CategoryAgg × CategoryAgg) (stateData : StateRecord) :
    CategoryAgg × CategoryAgg × CategoryAgg :=
  let population := (List.lookup stateData.state statePopulations).getD 0
  if stateData.state ∈ politicalClassifications.red then
    (⟨acc.1.incidents + stateData.incidents, acc.1.population + population⟩, acc.2.1, acc.2.2)
  else if stateData.state ∈ politicalClassifications.blue then
    (acc.1, ⟨acc.2.1.incidents + stateData.incidents, acc.2.1.population + population⟩, acc.2.2)
  else if stateData.state ∈ politicalClassifications.swing then
    (acc.1, acc.2.1, ⟨acc.2.2.incidents + stateData.incidents, acc.2.2.population + population⟩)
  else acc

/-- `processGunViolenceByPolitics(rawData)`, taking `rawData.stateBreakdown`. -/
def processGunViolenceByPolitics (stateBreakdown : List StateRecord) : PoliticsResult :=
  let t := stateBreakdown.foldl gvStep (⟨0, 0⟩, ⟨0, 0⟩, ⟨0, 0⟩)
  { red := ⟨t.1.incidents, t.1.population, calculatePerCapita t.1.incidents t.1.population⟩
    blue := ⟨t.2.1.incidents, t.2.1.population, calculatePerCapita t.2.1.incidents t.2.1.population⟩
    swing := ⟨t.2.2.incidents, t.2.2.population, calculatePerCapita t.2.2.incidents t.2.2.population⟩ }

/-- One element of `massShootingData.byState`. -/
structure MassRecord where
  state : String
  count : ℚ
deriving DecidableEq, Repr

/-- A `{ red, blue, swing }` triple of rationals. -/
structure TripleQ where
  red : ℚ
  blue : ℚ
  swing : ℚ
deriving DecidableEq, Repr

/-- A `{ red, blue, swing }` triple of JavaScript numbers. -/
structure TripleJS where
  red : JSNum
  blue : JSNum
  swing : JSNum
deriving DecidableEq, Repr

/-- The value returned by `processMassShootingsByPolitics`. -/
structure MassResult where
  counts : TripleQ
  rates : TripleJS
  populations : TripleQ
deriving DecidableEq, Repr

/-- The body of the `forEach` loop of `processMassShootingsByPolitics`:
first component accumulates counts, second accumulates populations. -/
def msStep (acc : TripleQ × TripleQ) (stateData : MassRecord) : TripleQ × TripleQ :=
  let population := (List.lookup stateData.state statePopulations).getD 0
  if stateData.state ∈ politicalClassifications.red then
    ({ acc.1 with red := acc.1.red + stateData.count },
     { acc.2 with red := acc.2.red + population })
  else if stateData.state ∈ politicalClassifications.blue then
    ({ acc.1 with blue := acc.1.blue + stateData.count },
     { acc.2 with blue := acc.2.blue + population })
  else if stateData.state ∈ politicalClassifications.swing then
    ({ acc.1 with swing := acc.1.swing + stateData.count },
     { acc.2 with swing := acc.2.swing + population })
  else acc

/-- `processMassShootingsByPolitics(massShootingData)`, taking
`massShootingData.byState`. -/
def processMassShootingsByPolitics (byState : List MassRecord) : MassResult :=
  let t := byState.foldl msStep (⟨0, 0, 0⟩, ⟨0, 0, 0⟩)
  { counts := t.1
    rates := ⟨calculatePerCapita t.1.red t.2.red,
              calculatePerCapita t.1.blue t.2.blue,
              calculatePerCapita t.1.swing t.2.swing⟩
    populations := t.2 }

/-- `getStatePolitics(state)`. -/
def getStatePolitics (state : String) : String :=
  if state ∈ politicalClassifications.red then "red"
  else if state ∈ politicalClassifications.blue then "blue"
  else if state ∈ politicalClassifications.swing then "swing"
  else "unknown"

/-- The `n * sumXY - sumX * sumY` numerator of
`calculatePearsonCorrelation` (`xi * y[i]` is modelled by zipping, the
function being applied to equal-length series). -/
def pearsonNumerator (x y : List ℚ) : ℚ :=
  (x.length : ℚ) * ((x.zip y).map fun p => p.1 * p.2).sum - x.sum * y.sum

/-- The `(n*sumX2 - sumX*sumX) * (n*sumY2 - sumY*sumY)` expression under
the square root in the denominator of `calculatePearsonCorrelation`
(`n = x.length`, as in the source). -/
def pearsonRadicand (x y : List ℚ) : ℚ :=
  ((x.length : ℚ) * (x.map fun a => a * a).sum - x.sum * x.sum) *
    ((x.length : ℚ) * (y.map fun a => a * a).sum - y.sum * y.sum)

/-- `calculatePearsonCorrelation(x, y)`: `denominator === 0 ? 0 :
numerator / denominator` with `denominator = Math.sqrt(radicand)`. -/
noncomputable def calculatePearsonCorrelation (x y : List ℚ) : ℝ :=
  if Real.sqrt ((pearsonRadicand x y : ℚ) : ℝ) = 0 then 0
  else ((pearsonNumerator x y : ℚ) : ℝ) / Real.sqrt ((pearsonRadicand x y : ℚ) : ℝ)

/-- One point pushed onto `correlationData` by `processGunLawCorrelation`. -/
structure CorrPoint where
  state : String
  lawScore : ℚ
  violenceRate : JSNum
  political : String
deriving DecidableEq, Repr

/-- The value returned by `processGunLawCorrelation` (the derived
`interpretation` field is not modelled; no claim concerns it). -/
structure CorrResult where
  data : List CorrPoint
  correlation : ℝ

/-- The conditional push of the `forEach` loop of
`processGunLawCorrelation`: `if (lawScore && population)` requires both
lookups to succeed with a nonzero (truthy) value. -/
def corrPoint? (scores : List (String × ℚ)) (stateData : StateRecord) : Option CorrPoint :=
  match List.lookup stateData.state scores, List.lookup stateData.state statePopulations with
  | some lawScore, some population =>
      if lawScore ≠ 0 ∧ population ≠ 0 then
        some ⟨stateData.state, lawScore,
              calculatePerCapita stateData.incidents population,
              getStatePolitics stateData.state⟩
      else none
  | _, _ => none

/-- `processGunLawCorrelation(gunLawData, gunViolenceData)`, taking
`gunLawData.scores` and `gunViolenceData.stateBreakdown`.  Every pushed
`violenceRate` is finite (its population was truthy), so extracting its
rational value with `jsVal` before the Pearson call is exact. -/
noncomputable def processGunLawCorrelation (scores : List (String × ℚ))
    (stateBreakdown : List StateRecord) : CorrResult :=
  let correlationData := stateBreakdown.filterMap (corrPoint? scores)
  { data := correlationData
    correlation := calculatePearsonCorrelation
      (correlationData.map fun d => d.lawScore)
      (correlationData.map fun d => jsVal d.violenceRate) }

/-- One element of `rawTrendData`. -/
structure MonthlyRecord where
  month : String
  incidents : ℚ
deriving DecidableEq, Repr

/-- One element of the `processed` array of `processMonthlyTrends`. -/
structure TrendRecord where
  month : String
  incidents : ℚ
  growthRate : JSNum
  movingAverage : JSNum
deriving DecidableEq, Repr

/-- `calculateMovingAverage(data, currentIndex, windowSize)`.
`slice(start, end)` is `drop`/`take`; the average of an empty window is
`0/0`, i.e. NaN, exactly as in JavaScript. -/
def calculateMovingAverage (data : List MonthlyRecord) (currentIndex windowSize : ℕ) : JSNum :=
  let start := currentIndex - windowSize / 2
  let stop := min data.length (start + windowSize)
  let window := (data.drop start).take (stop - start)
  jsRound (jsDiv (.num ((window.map fun item => item.incidents).sum))
                 (.num (window.length : ℚ)))

/-- The `map` body of `processMonthlyTrends`: growth rate from the
previous month (`toFixed(1)` then `parseFloat`; index 0 gets the plain
number 0) plus the centered moving average of window 3.  The `getD 0`
branch of the previous-month lookup is unreachable: when `0 < index` the
index `index - 1` is in range. -/
def trendProcessed (rawTrendData : List MonthlyRecord) : List TrendRecord :=
  rawTrendData.mapIdx fun index data =>
    let previousMonth : ℚ :=
      if 0 < index then ((rawTrendData.get? (index - 1)).map fun r => r.incidents).getD 0
      else data.incidents
    let growthRate := jsToFixed1 (jsMul (jsDiv (.num (data.incidents - previousMonth))
                                               (.num previousMonth)) (.num 100))
    { month := data.month
      incidents := data.incidents
      growthRate := if index = 0 then .num 0 else growthRate
      movingAverage := calculateMovingAverage rawTrendData index 3 }

/-- `analyzeTrend(data)`.  The two halves are nonempty whenever the length
is at least 2, so both averages are finite rationals; only the percent
change can divide by zero (when the first-half average is 0), so it is the
one value kept as a JavaScript number. -/
def analyzeTrend (data : List ℚ) : String :=
  if data.length < 2 then "insufficient data"
  else
    let firstHalf := data.take (data.length / 2)
    let secondHalf := data.drop (data.length / 2)
    let firstAvg := firstHalf.sum / (firstHalf.length : ℚ)
    let secondAvg := secondHalf.sum / (secondHalf.length : ℚ)
    let percentChange := jsMul (jsDiv (.num (secondAvg - firstAvg)) (.num firstAvg)) (.num 100)
    if jsGtB percentChange (.num 5) then "increasing"
    else if jsLtB percentChange (.num (-5)) then "decreasing"
    else "stable"

/-- The value returned by `processMonthlyTrends`. -/
structure TrendResult where
  data : List TrendRecord
  totalIncidents : ℚ
  averageMonthly : JSNum
  trend : String
deriving DecidableEq, Repr

/-- `processMonthlyTrends(rawTrendData)` (the unused `months` array of the
source is omitted). -/
def processMonthlyTrends (rawTrendData : List MonthlyRecord) : TrendResult :=
  { data := trendProcessed rawTrendData
    totalIncidents := (rawTrendData.map fun month => month.incidents).sum
    averageMonthly := jsRound (jsDiv
      (.num ((rawTrendData.map fun month => month.incidents).sum))
      (.num (rawTrendData.length : ℚ)))
    trend := analyzeTrend (rawTrendData.map fun d => d.incidents) }

/-! ## Facts about the aggregation by political category -/

/-- The record of the loop body of `processGunViolenceByPolitics`: the sum
of the three incident accumulators grows by the incidents of exactly the
records whose state is in one of the three classification lists. -/
theorem gvFold_incidents (l : List StateRecord) :
    ∀ acc : CategoryAgg × CategoryAgg × CategoryAgg,
      (l.foldl gvStep acc).1.incidents + (l.foldl gvStep acc).2.1.incidents +
          (l.foldl gvStep acc).2.2.incidents =
        acc.1.incidents + acc.2.1.incidents + acc.2.2.incidents +
          ((l.filter fun r => decide (r.state ∈ politicalClassifications.red ∨
              r.state ∈ politicalClassifications.blue ∨
              r.state ∈ politicalClassifications.swing)).map fun r => r.incidents).sum := by
  induction l with
  | nil => intro acc; simp
  | cons a t ih =>
    intro acc
    simp only [List.foldl_cons]
    rw [ih]
    by_cases h1 : a.state ∈ politicalClassifications.red
    · simp [gvStep, h1, List.filter_cons]; ring
    · by_cases h2 : a.state ∈ politicalClassifications.blue
      · simp [gvStep, h1, h2, List.filter_cons]; ring
      · by_cases h3 : a.state ∈ politicalClassifications.swing
        · simp [gvStep, h1, h2, h3, List.filter_cons]; ring
        · simp [gvStep, h1, h2, h3, List.filter_cons]

/-- A record whose state is in none of the three classification lists
leaves the `processGunViolenceByPolitics` accumulator unchanged. -/
theorem gvStep_unclassified (acc : CategoryAgg × CategoryAgg × CategoryAgg)
    (r : StateRecord) (h1 : r.state ∉ politicalClassifications.red)
    (h2 : r.state ∉ politicalClassifications.blue)
    (h3 : r.state ∉ politicalClassifications.swing) : gvStep acc r = acc := by
  simp [gvStep, h1, h2, h3]

/-- A record whose state is in none of the three classification lists
leaves the `processMassShootingsByPolitics` accumulator unchanged. -/
theorem msStep_unclassified (acc : TripleQ × TripleQ) (r : MassRecord)
    (h1 : r.state ∉ politicalClassifications.red)
    (h2 : r.state ∉ politicalClassifications.blue)
    (h3 : r.state ∉ politicalClassifications.swing) : msStep acc r = acc := by
  simp [msStep, h1, h2, h3]

/-- Claim C1 (refuting the spec's guarded-rate reading, which the spec
itself marks as the intended fix of a source bug): with no classified
records — the empty `stateBreakdown` — every category accumulates
population 0 and the unguarded `(0 / 0) * 100000` yields a NaN rate, not
0; and a classified state absent from the population table ("DC", which
the blue list contains) yields an Infinity rate.  The rates are neither 0
nor ≥ 0 there. -/
theorem C1_zero_population_rate_is_nan :
    (processGunViolenceByPolitics []).red.rate = JSNum.nan ∧
      (processGunViolenceByPolitics []).blue.rate = JSNum.nan ∧
      (processGunViolenceByPolitics []).swing.rate = JSNum.nan ∧
      (processGunViolenceByPolitics [⟨"DC", 5⟩]).blue.rate = JSNum.inf := by
  refine ⟨rfl, rfl, rfl, ?_⟩
  simp +decide [processGunViolenceByPolitics, gvStep, statePopulations,
    politicalClassifications, List.lookup, calculatePerCapita, jsDiv, jsMul]

/-- Claim C2 (counterexample): a record whose state code is absent from
the population table is not excluded when its state is classified: "DC"
has no population entry, yet its incidents are added to the blue
aggregate (with population contribution 0). -/
theorem C2_missing_population_not_excluded :
    List.lookup "DC" statePopulations = none ∧
      (processGunViolenceByPolitics [⟨"DC", 5⟩]).blue.incidents = 5 ∧
      (processGunViolenceByPolitics [⟨"DC", 5⟩]).blue.population = 0 := by
  refine ⟨by simp +decide [statePopulations, List.lookup], ?_, ?_⟩ <;>
    norm_num +decide [processGunViolenceByPolitics, gvStep, statePopulations,
      politicalClassifications, List.lookup]

/-- Claim C2 (amended): a record whose state code is absent from all three
classification lists is silently excluded from the aggregates of both
`processGunViolenceByPolitics` and `processMassShootingsByPolitics`;
records missing only from the population table still contribute their
incidents, with population contribution 0. -/
theorem C2_unclassified_record_excluded :
    (∀ (xs ys : List StateRecord) (r : StateRecord),
        r.state ∉ politicalClassifications.red →
        r.state ∉ politicalClassifications.blue →
        r.state ∉ politicalClassifications.swing →
        processGunViolenceByPolitics (xs ++ r :: ys) =
          processGunViolenceByPolitics (xs ++ ys)) ∧
      (∀ (xs ys : List MassRecord) (r : MassRecord),
        r.state ∉ politicalClassifications.red →
        r.state ∉ politicalClassifications.blue →
        r.state ∉ politicalClassifications.swing →
        processMassShootingsByPolitics (xs ++ r :: ys) =
          processMassShootingsByPolitics (xs ++ ys)) := by
  constructor
  · intro xs ys r h1 h2 h3
    simp only [processGunViolenceByPolitics, List.foldl_append, List.foldl_cons,
      gvStep_unclassified _ r h1 h2 h3]
  · intro xs ys r h1 h2 h3
    simp only [processMassShootingsByPolitics, List.foldl_append, List.foldl_cons,
      msStep_unclassified _ r h1 h2 h3]

/-- Witness for C2 (amended) at the unclassified code "ZZ". -/
theorem C2_unclassified_record_excluded_witness :
    processGunViolenceByPolitics [⟨"ZZ", 3⟩] = processGunViolenceByPolitics [] :=
  C2_unclassified_record_excluded.1 [] [] ⟨"ZZ", 3⟩ (by decide) (by decide) (by decide)

/-- Claim C4: the incidents of the three category aggregates sum to the
incidents of exactly the input records whose state is in one of the red,
blue, or swing classification lists. -/
theorem C4_incidents_partition (stateBreakdown : List StateRecord) :
    (processGunViolenceByPolitics stateBreakdown).red.incidents +
        (processGunViolenceByPolitics stateBreakdown).blue.incidents +
        (processGunViolenceByPolitics stateBreakdown).swing.incidents =
      ((stateBreakdown.filter fun r =>
          decide (r.state ∈ politicalClassifications.red ∨
            r.state ∈ politicalClassifications.blue ∨
            r.state ∈ politicalClassifications.swing)).map fun r => r.incidents).sum := by
  have h := gvFold_incidents stateBreakdown (⟨0, 0⟩, ⟨0, 0⟩, ⟨0, 0⟩)
  simpa [processGunViolenceByPolitics] using h

/-! ## Facts about the gun-law correlation join -/

/-- A successful association-list lookup exhibits a member pair. -/
theorem lookup_some_mem {β : Type} {l : List (String × β)} {s : String} {v : β}
    (h : List.lookup s l = some v) : (s, v) ∈ l := by
  induction l with
  | nil => simp [List.lookup] at h
  | cons a t ih =>
    obtain ⟨k, b⟩ := a
    simp only [List.lookup] at h
    by_cases hk : s = k
    · subst hk
      simp only [beq_self_eq_true] at h
      simp only [Option.some.injEq] at h
      subst h
      exact List.mem_cons_self _ _
    · have : (s == k) = false := beq_eq_false_iff_ne.mpr hk
      rw [this] at h
      exact List.mem_cons_of_mem _ (ih h)

/-- Characterization of the conditional push of `processGunLawCorrelation`. -/
theorem corrPoint?_eq_some_iff (scores : List (String × ℚ)) (r : StateRecord) (p : CorrPoint) :
    corrPoint? scores r = some p ↔
      ∃ q pop, List.lookup r.state scores = some q ∧ q ≠ 0 ∧
        List.lookup r.state statePopulations = some pop ∧ pop ≠ 0 ∧
        p = ⟨r.state, q, calculatePerCapita r.incidents pop, getStatePolitics r.state⟩ := by
  unfold corrPoint?
  cases h1 : List.lookup r.state scores with
  | none => simp [h1]
  | some q =>
    cases h2 : List.lookup r.state statePopulations with
    | none => simp [h1, h2]
    | some pop =>
      by_cases hq : q = 0
      · simp [h1, h2, hq]
      · by_cases hpop : pop = 0
        · simp [h1, h2, hq, hpop]
        · simp only [h1, h2, if_pos (And.intro hq hpop), Option.some.injEq]
          constructor
          · intro h
            exact ⟨q, pop, rfl, hq, rfl, hpop, h.symm⟩
          · rintro ⟨q', pop', hq', hqne, hpop', hpopne, hp⟩
            subst hq'
            subst hpop'
            exact hp.symm

/-- The state of every pushed point is the state of the record it came from. -/
theorem corrPoint?_state {scores : List (String × ℚ)} {r : StateRecord} {p : CorrPoint}
    (h : corrPoint? scores r = some p) : p.state = r.state := by
  obtain ⟨q, pop, -, -, -, -, hp⟩ := (corrPoint?_eq_some_iff scores r p).mp h
  rw [hp]

/-- No pushed point carries a state absent from the processed records. -/
theorem points_filter_nil (scores : List (String × ℚ)) (t : List StateRecord) (s : String)
    (hs : s ∉ t.map fun r => r.state) :
    (t.filterMap (corrPoint? scores)).filter (fun p => p.state = s) = [] := by
  rw [List.filter_eq_nil_iff]
  intro p hp
  obtain ⟨r, hr, hcr⟩ := List.mem_filterMap.mp hp
  have : p.state = r.state := corrPoint?_state hcr
  simp only [decide_eq_true_eq]
  intro hps
  exact hs (by rw [← hps, this] at hs ⊢; exact List.mem_map_of_mem _ hr)

/-- Per-state point count of the join built by `processGunLawCorrelation`,
over a violence table with pairwise distinct state codes. -/
theorem points_count (scores : List (String × ℚ)) :
    ∀ (sb : List StateRecord), (sb.map fun r => r.state).Nodup → ∀ s : String,
      ((sb.filterMap (corrPoint? scores)).filter (fun p => p.state = s)).length =
        if (∃ r ∈ sb, r.state = s) ∧
            (∃ q, List.lookup s scores = some q ∧ q ≠ 0) ∧
            (∃ pop, List.lookup s statePopulations = some pop ∧ pop ≠ 0)
        then 1 else 0 := by
  intro sb
  induction sb with
  | nil => intro _ s; simp
  | cons r t ih =>
    intro hnd s
    rw [List.map_cons, List.nodup_cons] at hnd
    obtain ⟨hrt, hndt⟩ := hnd
    by_cases hs : r.state = s
    · subst hs
      cases hc : corrPoint? scores r with
      | none =>
        have hjoin : ¬ ((∃ q, List.lookup r.state scores = some q ∧ q ≠ 0) ∧
            (∃ pop, List.lookup r.state statePopulations = some pop ∧ pop ≠ 0)) := by
          rintro ⟨⟨q, hq, hqne⟩, ⟨pop, hpop, hpopne⟩⟩
          have := (corrPoint?_eq_some_iff scores r
            ⟨r.state, q, calculatePerCapita r.incidents pop, getStatePolitics r.state⟩).mpr
            ⟨q, pop, hq, hqne, hpop, hpopne, rfl⟩
          rw [hc] at this
          exact Option.noConfusion this
        simp only [List.filterMap_cons, hc]
        rw [points_filter_nil scores t r.state hrt]
        simp only [List.length_nil]
        rw [if_neg]
        rintro ⟨-, hj1, hj2⟩
        exact hjoin ⟨hj1, hj2⟩
      | some p =>
        obtain ⟨q, pop, hq, hqne, hpop, hpopne, hp⟩ :=
          (corrPoint?_eq_some_iff scores r p).mp hc
        simp only [List.filterMap_cons, hc]
        rw [List.filter_cons_of_pos (by simp [hp])]
        rw [points_filter_nil scores t r.state hrt]
        simp only [List.length_cons, List.length_nil]
        rw [if_pos ⟨⟨r, List.mem_cons_self _ _, rfl⟩, ⟨q, hq, hqne⟩, ⟨pop, hpop, hpopne⟩⟩]
    · have hexiff : ((∃ x ∈ r :: t, x.state = s) ↔ (∃ x ∈ t, x.state = s)) := by
        constructor
        · rintro ⟨x, hx, hxs⟩
          rcases List.mem_cons.mp hx with rfl | hxt
          · exact absurd hxs hs
          · exact ⟨x, hxt, hxs⟩
        · rintro ⟨x, hx, hxs⟩
          exact ⟨x, List.mem_cons_of_mem _ hx, hxs⟩
      have hcond : (((∃ x ∈ r :: t, x.state = s) ∧
            (∃ q, List.lookup s scores = some q ∧ q ≠ 0) ∧
            (∃ pop, List.lookup s statePopulations = some pop ∧ pop ≠ 0)) ↔
          ((∃ x ∈ t, x.state = s) ∧
            (∃ q, List.lookup s scores = some q ∧ q ≠ 0) ∧
            (∃ pop, List.lookup s statePopulations = some pop ∧ pop ≠ 0))) :=
        and_congr_left fun _ => hexiff
      cases hc : corrPoint? scores r with
      | none =>
        simp only [List.filterMap_cons, hc]
        rw [ih hndt s, if_congr hcond rfl rfl]
      | some p =>
        have hps : p.state = r.state := corrPoint?_state hc
        simp only [List.filterMap_cons, hc]
        rw [List.filter_cons_of_neg (by simp [hps, hs])]
        rw [ih hndt s, if_congr hcond rfl rfl]

/-- Claim C3: over a violence table with distinct state codes, the points
list of `processGunLawCorrelation` holds exactly one point per state that
occurs in the violence table, has a nonzero score in the law-score table,
and has a (nonzero) population entry; each point carries the state's law
score and its per-capita rate computed from the record's incidents and the
state's population; and the Pearson coefficient is computed over exactly
the law scores and rates of these points. -/
theorem C3_inner_join_points (scores : List (String × ℚ)) (stateBreakdown : List StateRecord)
    (hnd : (stateBreakdown.map fun r => r.state).Nodup) :
    (∀ s : String,
      ((processGunLawCorrelation scores stateBreakdown).data.filter
          (fun p => p.state = s)).length =
        if (∃ r ∈ stateBreakdown, r.state = s) ∧
            (∃ q, List.lookup s scores = some q ∧ q ≠ 0) ∧
            (∃ pop, List.lookup s statePopulations = some pop ∧ pop ≠ 0)
        then 1 else 0) ∧
    (∀ p ∈ (processGunLawCorrelation scores stateBreakdown).data,
      ∃ r ∈ stateBreakdown, r.state = p.state ∧
        List.lookup p.state scores = some p.lawScore ∧ p.lawScore ≠ 0 ∧
        ∃ pop, List.lookup p.state statePopulations = some pop ∧ pop ≠ 0 ∧
          p.violenceRate = calculatePerCapita r.incidents pop ∧
          p.political = getStatePolitics p.state) ∧
    (processGunLawCorrelation scores stateBreakdown).correlation =
      calculatePearsonCorrelation
        ((processGunLawCorrelation scores stateBreakdown).data.map fun d => d.lawScore)
        ((processGunLawCorrelation scores stateBreakdown).data.map fun d =>
          jsVal d.violenceRate) := by
  refine ⟨points_count scores stateBreakdown hnd, ?_, rfl⟩
  intro p hp
  obtain ⟨r, hr, hcr⟩ := List.mem_filterMap.mp hp
  obtain ⟨q, pop, hq, hqne, hpop, hpopne, hpeq⟩ := (corrPoint?_eq_some_iff scores r p).mp hcr
  subst hpeq
  exact ⟨r, hr, rfl, hq, hqne, pop, hpop, hpopne, rfl, rfl⟩

/-- Claim C3 (counterexample to the unamended reading): "TX" appears in
the violence table and in the law-score table `{TX: 0}` and has a positive
population entry, yet the truthiness guard `if (lawScore && population)`
drops it: the points list is empty, not a singleton. -/
theorem C3_zero_law_score_dropped :
    List.lookup "TX" [("TX", (0 : ℚ))] = some 0 ∧
      List.lookup "TX" statePopulations = some 30503301 ∧
      (0 : ℚ) < 30503301 ∧
      (processGunLawCorrelation [("TX", 0)] [⟨"TX", 10⟩]).data = [] ∧
      ((processGunLawCorrelation [("TX", 7)] [⟨"TX", 2⟩, ⟨"TX", 2⟩]).data.filter
          (fun p => p.state = "TX")).length = 2 := by
  refine ⟨rfl, by simp +decide [statePopulations, List.lookup], by norm_num, ?_, ?_⟩
  · show List.filterMap (corrPoint? [("TX", 0)]) [⟨"TX", 10⟩] = []
    simp [corrPoint?, List.lookup]
  · show ((List.filterMap (corrPoint? [("TX", 7)]) [⟨"TX", 2⟩, ⟨"TX", 2⟩]).filter
        (fun p => p.state = "TX")).length = 2
    simp +decide [corrPoint?, List.lookup, statePopulations]

/-- Witness for C3 (amended) at the one-state tables
`scores = {TX: 7}`, `stateBreakdown = [{TX, 2}]`. -/
theorem C3_inner_join_points_witness :
    ((processGunLawCorrelation [("TX", 7)] [⟨"TX", 2⟩]).data.filter
        (fun p => p.state = "TX")).length =
      if (∃ r ∈ [(⟨"TX", 2⟩ : StateRecord)], r.state = "TX") ∧
          (∃ q, List.lookup "TX" [("TX", (7 : ℚ))] = some q ∧ q ≠ 0) ∧
          (∃ pop, List.lookup "TX" statePopulations = some pop ∧ pop ≠ 0)
      then 1 else 0 :=
  (C3_inner_join_points [("TX", 7)] [⟨"TX", 2⟩] (by decide)).1 "TX"

/-! ## Facts about the Pearson coefficient -/

/-- Zipping a list with itself multiplies each element by itself. -/
theorem zip_self_map (x : List ℚ) :
    ((x.zip x).map fun p => p.1 * p.2) = x.map fun a => a * a := by
  induction x with
  | nil => rfl
  | cons a t ih => simp [ih]

/-- Sum of squared deviations, expanded. -/
theorem sum_map_sub_sq (l : List ℚ) (q : ℚ) :
    (l.map fun a => (a - q) * (a - q)).sum =
      (l.map fun a => a * a).sum - 2 * q * l.sum + (l.length : ℚ) * (q * q) := by
  induction l with
  | nil => simp
  | cons a t ih =>
    simp only [List.map_cons, List.sum_cons, List.length_cons, ih]
    push_cast
    ring

/-- A sum of squared deviations is nonnegative. -/
theorem sum_map_sub_sq_nonneg (l : List ℚ) (q : ℚ) :
    0 ≤ (l.map fun a => (a - q) * (a - q)).sum := by
  apply List.sum_nonneg
  intro b hb
  obtain ⟨a, -, rfl⟩ := List.mem_map.mp hb
  exact mul_self_nonneg _

/-- A sum of squared deviations with one nonzero deviation is positive. -/
theorem sum_map_sub_sq_pos (l : List ℚ) (q : ℚ) :
    (∃ a ∈ l, a ≠ q) → 0 < (l.map fun a => (a - q) * (a - q)).sum := by
  induction l with
  | nil => rintro ⟨a, ha, -⟩; cases ha
  | cons b t ih =>
    rintro ⟨a, ha, hne⟩
    simp only [List.map_cons, List.sum_cons]
    rcases List.mem_cons.mp ha with rfl | hat
    · exact add_pos_of_pos_of_nonneg (mul_self_pos.mpr (sub_ne_zero.mpr hne))
        (sum_map_sub_sq_nonneg t q)
    · exact add_pos_of_nonneg_of_pos (mul_self_nonneg _) (ih ⟨a, hat, hne⟩)

/-- Strict Cauchy–Schwarz for a non-constant list:
`n·Σa² − (Σa)² > 0`. -/
theorem variance_expr_pos (x : List ℚ) (h : ∃ a ∈ x, ∃ b ∈ x, a ≠ b) :
    0 < (x.length : ℚ) * (x.map fun a => a * a).sum - x.sum * x.sum := by
  obtain ⟨a, ha, b, hb, hab⟩ := h
  have hlen : 0 < (x.length : ℚ) := by
    exact_mod_cast List.length_pos.mpr (List.ne_nil_of_mem ha)
  have hne : (x.length : ℚ) ≠ 0 := ne_of_gt hlen
  have hex : ∃ c ∈ x, c ≠ x.sum / (x.length : ℚ) := by
    by_cases haq : a = x.sum / (x.length : ℚ)
    · exact ⟨b, hb, fun hbq => hab (by rw [haq, hbq])⟩
    · exact ⟨a, ha, haq⟩
  have hpos := sum_map_sub_sq_pos x (x.sum / (x.length : ℚ)) hex
  rw [sum_map_sub_sq] at hpos
  have h2 := mul_pos hlen hpos
  have heq : (x.length : ℚ) * ((x.map fun a => a * a).sum -
        2 * (x.sum / (x.length : ℚ)) * x.sum +
        (x.length : ℚ) * (x.sum / (x.length : ℚ) * (x.sum / (x.length : ℚ)))) =
      (x.length : ℚ) * (x.map fun a => a * a).sum - x.sum * x.sum := by
    field_simp
    ring
  rw [heq] at h2
  exact h2

/-- Sum of a constant list. -/
theorem const_list_sum (l : List ℚ) (c : ℚ) (h : ∀ a ∈ l, a = c) :
    l.sum = (l.length : ℚ) * c := by
  induction l with
  | nil => simp
  | cons a t ih =>
    have ha : a = c := h a (List.mem_cons_self _ _)
    have ht := ih fun x hx => h x (List.mem_cons_of_mem _ hx)
    simp only [List.sum_cons, List.length_cons, ht, ha]
    push_cast
    ring

/-- Sum of squares of a constant list. -/
theorem const_list_sum_sq (l : List ℚ) (c : ℚ) (h : ∀ a ∈ l, a = c) :
    (l.map fun a => a * a).sum = (l.length : ℚ) * (c * c) := by
  induction l with
  | nil => simp
  | cons a t ih =>
    have ha : a = c := h a (List.mem_cons_self _ _)
    have ht := ih fun x hx => h x (List.mem_cons_of_mem _ hx)
    simp only [List.map_cons, List.sum_cons, List.length_cons, ht, ha]
    push_cast
    ring

/-- Claim C5: `calculatePearsonCorrelation` returns 0 whenever its
denominator `Math.sqrt((nΣx²−(Σx)²)(nΣy²−(Σy)²))` is 0; in particular
when `x` is a constant series, or when `y` is a constant series of the
same length.  The function is total: no input raises. -/
theorem C5_pearson_zero_denominator (x y : List ℚ) :
    (Real.sqrt ((pearsonRadicand x y : ℚ) : ℝ) = 0 →
        calculatePearsonCorrelation x y = 0) ∧
      (∀ c : ℚ, (∀ a ∈ x, a = c) → calculatePearsonCorrelation x y = 0) ∧
      (∀ c : ℚ, (∀ a ∈ y, a = c) → x.length = y.length →
        calculatePearsonCorrelation x y = 0) := by
  refine ⟨?_, ?_, ?_⟩
  · intro h
    simp only [calculatePearsonCorrelation, if_pos h]
  · intro c hc
    have hrad : pearsonRadicand x y = 0 := by
      rw [pearsonRadicand, const_list_sum x c hc, const_list_sum_sq x c hc]
      ring
    simp only [calculatePearsonCorrelation, hrad]
    norm_num
  · intro c hc hlen
    have hrad : pearsonRadicand x y = 0 := by
      rw [pearsonRadicand, const_list_sum y c hc, const_list_sum_sq y c hc, hlen]
      ring
    simp only [calculatePearsonCorrelation, hrad]
    norm_num

/-- Witness for C5 at the constant series `[2, 2]` against `[0, 1]`. -/
theorem C5_pearson_zero_denominator_witness :
    (∀ a ∈ ([2, 2] : List ℚ), a = 2) ∧
      calculatePearsonCorrelation [2, 2] [0, 1] = 0 :=
  ⟨by decide, (C5_pearson_zero_denominator [2, 2] [0, 1]).2.1 2 (by decide)⟩

/-- Claim C6: on any non-constant series `x`, the self-correlation
`calculatePearsonCorrelation x x` is exactly 1. -/
theorem C6_pearson_self_correlation (x : List ℚ) (h : ∃ a ∈ x, ∃ b ∈ x, a ≠ b) :
    calculatePearsonCorrelation x x = 1 := by
  have htpos : 0 < (x.length : ℚ) * (x.map fun a => a * a).sum - x.sum * x.sum :=
    variance_expr_pos x h
  have hnum : pearsonNumerator x x =
      (x.length : ℚ) * (x.map fun a => a * a).sum - x.sum * x.sum := by
    rw [pearsonNumerator, zip_self_map]
  have hrad : pearsonRadicand x x =
      ((x.length : ℚ) * (x.map fun a => a * a).sum - x.sum * x.sum) *
        ((x.length : ℚ) * (x.map fun a => a * a).sum - x.sum * x.sum) := by
    rw [pearsonRadicand]
  have hsqrt : Real.sqrt ((pearsonRadicand x x : ℚ) : ℝ) =
      (((x.length : ℚ) * (x.map fun a => a * a).sum - x.sum * x.sum : ℚ) : ℝ) := by
    rw [hrad, Rat.cast_mul]
    exact Real.sqrt_mul_self (by exact_mod_cast le_of_lt htpos)
  have htR : (0 : ℝ) <
      (((x.length : ℚ) * (x.map fun a => a * a).sum - x.sum * x.sum : ℚ) : ℝ) := by
    exact_mod_cast htpos
  simp only [calculatePearsonCorrelation, hsqrt, hnum]
  rw [if_neg (ne_of_gt htR)]
  exact div_self (ne_of_gt htR)

/-- Witness for C6 at the non-constant series `[0, 1]`. -/
theorem C6_pearson_self_correlation_witness :
    (∃ a ∈ ([0, 1] : List ℚ), ∃ b ∈ ([0, 1] : List ℚ), a ≠ b) ∧
      calculatePearsonCorrelation [0, 1] [0, 1] = 1 :=
  ⟨by decide, C6_pearson_self_correlation [0, 1] (by decide)⟩

/-! ## Facts about the monthly-trend processing -/

/-- Claim C7: in the output of `processMonthlyTrends`, index 0 gets growth
rate 0, every later index `i` (with a nonzero previous-month count) gets
`(incidents[i] − incidents[i-1]) / incidents[i-1] * 100` rounded to one
decimal (with `toFixed` ties going away from zero), the sequence
`[100, 150, 120]` yields `[0, 50, -20]`, and the negative exact tie
`[16, 15]` yields growth rate `-6.3`. -/
theorem C7_growth_rates (rawTrendData : List MonthlyRecord) :
    (∀ cur, rawTrendData.get? 0 = some cur →
      ∃ r0, (processMonthlyTrends rawTrendData).data.get? 0 = some r0 ∧
        r0.growthRate = .num 0) ∧
    (∀ (i : ℕ) (prev cur : MonthlyRecord), 1 ≤ i →
      rawTrendData.get? (i - 1) = some prev → rawTrendData.get? i = some cur →
      prev.incidents ≠ 0 →
      ∃ ri, (processMonthlyTrends rawTrendData).data.get? i = some ri ∧
        ri.growthRate =
          .num (round1 ((cur.incidents - prev.incidents) / prev.incidents * 100))) ∧
    ((processMonthlyTrends [⟨"Jan", 100⟩, ⟨"Feb", 150⟩, ⟨"Mar", 120⟩]).data.map
        fun r => r.growthRate) = [.num 0, .num 50, .num (-20)] ∧
    ((processMonthlyTrends [⟨"Jan", 16⟩, ⟨"Feb", 15⟩]).data.map
        fun r => r.growthRate) = [.num 0, .num (-63 / 10)] := by
  have hget : ∀ (i : ℕ) (cur : MonthlyRecord), rawTrendData.get? i = some cur →
      ∃ hi : i < rawTrendData.length,
        (processMonthlyTrends rawTrendData).data.get? i =
          some ((trendProcessed rawTrendData).get
            ⟨i, by simpa [trendProcessed, List.length_mapIdx] using hi⟩) := by
    intro i cur hcur
    have hi : i < rawTrendData.length := by
      rcases List.get?_eq_some.mp hcur with ⟨h, -⟩
      exact h
    exact ⟨hi, List.get?_eq_get _⟩
  refine ⟨?_, ?_, ?_, ?_⟩
  · intro cur hcur
    obtain ⟨hi, hsome⟩ := hget 0 cur hcur
    refine ⟨_, hsome, ?_⟩
    simp only [trendProcessed]
    rw [List.get_mapIdx _ _ _ hi]
    rfl
  · intro i prev cur h1i hprev hcur hne
    obtain ⟨hi, hsome⟩ := hget i cur hcur
    refine ⟨_, hsome, ?_⟩
    simp only [trendProcessed]
    rw [List.get_mapIdx _ _ _ hi]
    have hi0 : i ≠ 0 := by omega
    have hcur' : rawTrendData.get ⟨i, hi⟩ = cur := by
      have h := List.get?_eq_get hi
      rw [hcur] at h
      exact (Option.some.injEq _ _).mp h.symm
    simp only [hcur', if_neg hi0, if_pos (Nat.pos_of_ne_zero hi0), hprev, Option.map_some',
      Option.getD_some]
    simp [jsDiv, jsMul, jsToFixed1, hne, div_mul_eq_mul_div]
  · simp [processMonthlyTrends, trendProcessed, List.mapIdx_eq_enum_map, List.enum,
      List.enumFrom, Function.uncurry, jsToFixed1, jsMul, jsDiv, round1, toFixedInt,
      round_eq]
    norm_num
  · simp [processMonthlyTrends, trendProcessed, List.mapIdx_eq_enum_map, List.enum,
      List.enumFrom, Function.uncurry, jsToFixed1, jsMul, jsDiv, round1, toFixedInt,
      round_eq]
    norm_num

/-- Witness for C7 at the sequence `[100, 150, 120]`, index 1. -/
theorem C7_growth_rates_witness :
    ∃ ri, (processMonthlyTrends [⟨"Jan", 100⟩, ⟨"Feb", 150⟩, ⟨"Mar", 120⟩]).data.get? 1 =
        some ri ∧
      ri.growthRate = .num (round1 ((150 - 100) / 100 * 100)) :=
  (C7_growth_rates [⟨"Jan", 100⟩, ⟨"Feb", 150⟩, ⟨"Mar", 120⟩]).2.1 1 ⟨"Jan", 100⟩
    ⟨"Feb", 150⟩ (by decide) (by decide) (by decide) (by decide)

/-- Claim C8: for every in-range index, the window-3 moving average is the
mean of the incidents over the index range
`[max(0, i−1), min(len, start+3))`, rounded half-up to an integer; and on
the constant sequence `[5,5,5,5,5]` every moving average is 5.  (`i - 1`
is ℕ subtraction, i.e. `max(0, i−1)`.) -/
theorem C8_moving_average :
    (∀ (data : List MonthlyRecord) (i : ℕ), i < data.length →
      calculateMovingAverage data i 3 =
        .num ((round ((((data.drop (i - 1)).take (min data.length (i - 1 + 3) - (i - 1))).map
            fun item => item.incidents).sum /
          ((((data.drop (i - 1)).take (min data.length (i - 1 + 3) - (i - 1))).length : ℕ) :
            ℚ)) : ℤ)) ) ∧
    ((List.range 5).map fun i =>
        calculateMovingAverage [⟨"a", 5⟩, ⟨"b", 5⟩, ⟨"c", 5⟩, ⟨"d", 5⟩, ⟨"e", 5⟩] i 3) =
      List.replicate 5 (.num 5) := by
  constructor
  · intro data i hi
    have e32 : (3 : ℕ) / 2 = 1 := rfl
    have hwl : ((data.drop (i - 1)).take (min data.length (i - 1 + 3) - (i - 1))).length =
        min data.length (i - 1 + 3) - (i - 1) := by
      simp only [List.length_take, List.length_drop]
      omega
    have hpos : 0 < min data.length (i - 1 + 3) - (i - 1) := by omega
    have hne : ((((data.drop (i - 1)).take (min data.length (i - 1 + 3) - (i - 1))).length :
        ℕ) : ℚ) ≠ 0 := by
      rw [hwl]
      exact_mod_cast Nat.pos_iff_ne_zero.mp hpos
    simp only [calculateMovingAverage, e32, jsDiv, jsRound]
    rw [if_neg hne]
  · simp [List.range_succ, calculateMovingAverage, jsDiv, jsRound, round_eq]
    norm_num

/-- Witness for C8 at the one-element sequence, index 0. -/
theorem C8_moving_average_witness :
    calculateMovingAverage [⟨"Jan", 100⟩] 0 3 = .num 100 := by
  have h := C8_moving_average.1 [⟨"Jan", 100⟩] 0 (by decide)
  rw [h]
  norm_num [round_eq]

/-- Claim C9: `analyzeTrend` answers "insufficient data" below two
elements; otherwise (when the first-half mean is nonzero) it compares the
two half means through the percent change
`(secondAvg − firstAvg) / firstAvg * 100` against ±5; and the three
concrete sequences of the specification classify as stated. -/
theorem C9_trend_classification :
    (∀ data : List ℚ, data.length < 2 → analyzeTrend data = "insufficient data") ∧
    (∀ data : List ℚ, 2 ≤ data.length →
      (data.take (data.length / 2)).sum / (((data.take (data.length / 2)).length : ℕ) : ℚ) ≠ 0 →
      analyzeTrend data =
        (if 5 < ((data.drop (data.length / 2)).sum /
              (((data.drop (data.length / 2)).length : ℕ) : ℚ) -
            (data.take (data.length / 2)).sum /
              (((data.take (data.length / 2)).length : ℕ) : ℚ)) /
            ((data.take (data.length / 2)).sum /
              (((data.take (data.length / 2)).length : ℕ) : ℚ)) * 100
         then "increasing"
         else if ((data.drop (data.length / 2)).sum /
              (((data.drop (data.length / 2)).length : ℕ) : ℚ) -
            (data.take (data.length / 2)).sum /
              (((data.take (data.length / 2)).length : ℕ) : ℚ)) /
            ((data.take (data.length / 2)).sum /
              (((data.take (data.length / 2)).length : ℕ) : ℚ)) * 100 < -5
         then "decreasing" else "stable")) ∧
    analyzeTrend [100, 100, 100, 200, 200, 200] = "increasing" ∧
    analyzeTrend [200, 200, 200, 100, 100, 100] = "decreasing" ∧
    analyzeTrend [100, 105, 98, 102] = "stable" := by
  refine ⟨?_, ?_, ?_, ?_, ?_⟩
  · intro data hlt
    simp [analyzeTrend, hlt]
  · intro data hlen hne
    rw [analyzeTrend]
    rw [if_neg (by omega)]
    simp only [jsDiv, jsMul, if_neg hne, jsGtB, jsLtB, decide_eq_true_eq]
  · norm_num [analyzeTrend, jsDiv, jsMul, jsGtB, jsLtB]
  · norm_num [analyzeTrend, jsDiv, jsMul, jsGtB, jsLtB]
  · norm_num [analyzeTrend, jsDiv, jsMul, jsGtB, jsLtB]

/-- Witness for C9 at the empty sequence. -/
theorem C9_trend_classification_witness :
    analyzeTrend [] = "insufficient data" :=
  C9_trend_classification.1 [] (by decide)

/-! ## Facts about `getStatePolitics` and the `political` field -/

/-- Claim C10 (counterexample to its consequence): every state code in the
population table is classified, so the natural attempt at an "unknown"
point — a state outside the classification lists — has no population entry
and is dropped by the join; no point is produced at all. -/
theorem C10_no_unknown_point_possible :
    ((statePopulations.map Prod.fst).all fun s => getStatePolitics s != "unknown") = true ∧
      (processGunLawCorrelation [("ZZ", 5)] [⟨"ZZ", 7⟩]).data = [] := by
  constructor
  · decide
  · show List.filterMap (corrPoint? [("ZZ", 5)]) [⟨"ZZ", 7⟩] = []
    simp +decide [corrPoint?, List.lookup, statePopulations]

/-- Claim C10 (amended): `getStatePolitics` is total and returns "unknown"
on every code outside the three classification lists; but since every
state in the population table is classified, the `political` field of a
point of `processGunLawCorrelation` is never "unknown". -/
theorem C10_getStatePolitics_total :
    (∀ s : String, s ∉ politicalClassifications.red →
        s ∉ politicalClassifications.blue → s ∉ politicalClassifications.swing →
        getStatePolitics s = "unknown") ∧
      (∀ (scores : List (String × ℚ)) (sb : List StateRecord),
        ∀ p ∈ (processGunLawCorrelation scores sb).data, p.political ≠ "unknown") := by
  constructor
  · intro s h1 h2 h3
    simp [getStatePolitics, h1, h2, h3]
  · intro scores sb p hp
    obtain ⟨r, hr, hcr⟩ := List.mem_filterMap.mp hp
    obtain ⟨q, pop, hq, hqne, hpop, hpopne, hpeq⟩ := (corrPoint?_eq_some_iff scores r p).mp hcr
    subst hpeq
    have hmem : (r.state, pop) ∈ statePopulations := lookup_some_mem hpop
    have hkey : r.state ∈ statePopulations.map Prod.fst := List.mem_map_of_mem _ hmem
    have hall : ∀ s ∈ statePopulations.map Prod.fst, getStatePolitics s ≠ "unknown" := by
      decide
    exact hall _ hkey

/-- Witness for C10 (amended) at the unclassified code "ZZ". -/
theorem C10_getStatePolitics_total_witness :
    getStatePolitics "ZZ" = "unknown" :=
  C10_getStatePolitics_total.1 "ZZ" (by decide) (by decide) (by decide)

end ClearlyPolitics
